import Mathlib

/-!
Verification development for the AroFlo integration repository.

The Python sources are shallowly embedded: pure helpers become Lean
functions; effectful code (HTTP attempts, file I/O, wall-clock time) is
modelled by passing the environment explicitly (an outcome oracle per
attempt, a file-system environment record, the current UTC time as an
argument).  Machine floats are embedded as exact rationals; byte strings
are lists of naturals below 256.
-/

namespace Aroflo

/-! ## Bytes, hex, UTF-8 and percent-encoding (`urllib.parse.quote`) -/

/-- Lower-case hex digit for a value below 16 (as used by `hexdigest()`). -/
def hexDigitLower (n : Nat) : Char :=
  if n < 10 then Char.ofNat (48 + n) else Char.ofNat (87 + n)

/-- Upper-case hex digit for a value below 16 (as used by `urllib.parse.quote`). -/
def hexDigitUpper (n : Nat) : Char :=
  if n < 10 then Char.ofNat (48 + n) else Char.ofNat (55 + n)

/-- Two lower-case hex characters of one byte. -/
def byteHexLower (b : Nat) : List Char :=
  [hexDigitLower (b / 16), hexDigitLower (b % 16)]

/-- Two upper-case hex characters of one byte. -/
def byteHexUpper (b : Nat) : List Char :=
  [hexDigitUpper (b / 16), hexDigitUpper (b % 16)]

/-- Lower-case hex string of a byte list (Python `bytes.hex()` / `hexdigest()`). -/
def hexOfBytes (l : List Nat) : String :=
  ⟨(l.map byteHexLower).flatten⟩

/-- UTF-8 encoding of one character (code point to bytes). -/
def utf8Char (c : Char) : List Nat :=
  let n := c.toNat
  if n < 0x80 then [n]
  else if n < 0x800 then
    [0xC0 + n / 0x40, 0x80 + n % 0x40]
  else if n < 0x10000 then
    [0xE0 + n / 0x1000, 0x80 + (n / 0x40) % 0x40, 0x80 + n % 0x40]
  else
    [0xF0 + n / 0x40000, 0x80 + (n / 0x1000) % 0x40, 0x80 + (n / 0x40) % 0x40, 0x80 + n % 0x40]

/-- UTF-8 encoding of a string (Python string encode with UTF-8). -/
def utf8 (s : String) : List Nat :=
  (s.data.map utf8Char).flatten

/-- Bytes that `urllib.parse.quote` leaves unescaped when the safe set is
empty: ASCII letters, digits, and `_.-~`. -/
def isUnreservedByte (b : Nat) : Bool :=
  (65 ≤ b && b ≤ 90) || (97 ≤ b && b ≤ 122) || (48 ≤ b && b ≤ 57) ||
    b == 45 || b == 46 || b == 95 || b == 126

/-- Percent-encoding of one byte. -/
def quoteByte (b : Nat) : List Char :=
  if isUnreservedByte b then [Char.ofNat b] else '%' :: byteHexUpper b

/-- Embeds `urllib.parse.quote` with an empty safe set: percent-encode the UTF-8 bytes. -/
def urlquote (s : String) : String :=
  ⟨((utf8 s).map quoteByte).flatten⟩

/-! ## SHA-512 (FIPS 180-4) and HMAC, over `Nat` with arithmetic mod `2^64` -/

/-- The word modulus of SHA-512, two to the 64. -/
def M64 : Nat := 2 ^ 64

/-- Right rotation of a 64-bit word by `k`. -/
def rotr (k x : Nat) : Nat := (x / 2 ^ k + x % 2 ^ k * 2 ^ (64 - k)) % M64

/-- Right shift of a 64-bit word by `k`. -/
def shr (k x : Nat) : Nat := x / 2 ^ k

/-- Three-way xor. -/
def xor3 (a b c : Nat) : Nat := a ^^^ b ^^^ c

/-- SHA-512 Σ0. -/
def bigSigma0 (x : Nat) : Nat := xor3 (rotr 28 x) (rotr 34 x) (rotr 39 x)

/-- SHA-512 Σ1. -/
def bigSigma1 (x : Nat) : Nat := xor3 (rotr 14 x) (rotr 18 x) (rotr 41 x)

/-- SHA-512 σ0. -/
def smallSigma0 (x : Nat) : Nat := xor3 (rotr 1 x) (rotr 8 x) (shr 7 x)

/-- SHA-512 σ1. -/
def smallSigma1 (x : Nat) : Nat := xor3 (rotr 19 x) (rotr 61 x) (shr 6 x)

/-- SHA-512 Ch, with complement taken inside 64 bits. -/
def chFn (e f g : Nat) : Nat := (e &&& f) ^^^ ((e ^^^ (M64 - 1)) &&& g)

/-- SHA-512 Maj. -/
def majFn (a b c : Nat) : Nat := (a &&& b) ^^^ (a &&& c) ^^^ (b &&& c)

/-- The 80 SHA-512 round constants. -/
def sha512K : List Nat :=
  [4794697086780616226, 8158064640168781261, 13096744586834688815,
   16840607885511220156, 4131703408338449720, 6480981068601479193,
   10538285296894168987, 12329834152419229976, 15566598209576043074,
   1334009975649890238, 2608012711638119052, 6128411473006802146,
   8268148722764581231, 9286055187155687089, 11230858885718282805,
   13951009754708518548, 16472876342353939154, 17275323862435702243,
   1135362057144423861, 2597628984639134821, 3308224258029322869,
   5365058923640841347, 6679025012923562964, 8573033837759648693,
   10970295158949994411, 12119686244451234320, 12683024718118986047,
   13788192230050041572, 14330467153632333762, 15395433587784984357,
   489312712824947311, 1452737877330783856, 2861767655752347644,
   3322285676063803686, 5560940570517711597, 5996557281743188959,
   7280758554555802590, 8532644243296465576, 9350256976987008742,
   10552545826968843579, 11727347734174303076, 12113106623233404929,
   14000437183269869457, 14369950271660146224, 15101387698204529176,
   15463397548674623760, 17586052441742319658, 1182934255886127544,
   1847814050463011016, 2177327727835720531, 2830643537854262169,
   3796741975233480872, 4115178125766777443, 5681478168544905931,
   6601373596472566643, 7507060721942968483, 8399075790359081724,
   8693463985226723168, 9568029438360202098, 10144078919501101548,
   10430055236837252648, 11840083180663258601, 13761210420658862357,
   14299343276471374635, 14566680578165727644, 15097957966210449927,
   16922976911328602910, 17689382322260857208, 500013540394364858,
   748580250866718886, 1242879168328830382, 1977374033974150939,
   2944078676154940804, 3659926193048069267, 4368137639120453308,
   4836135668995329356, 5532061633213252278, 6448918945643986474,
   6902733635092675308, 7801388544844847127]

/-- The SHA-512 initial hash value. -/
def sha512H0 : List Nat :=
  [7640891576956012808, 13503953896175478587, 4354685564936845355,
   11912009170470909681, 5840696475078001361, 11170449401992604703,
   2270897969802886507, 6620516959819538809]

/-- Split a list into chunks of `n` (fuelled by the list length). -/
def chunksGo (n : Nat) : Nat → List α → List (List α)
  | 0, _ => []
  | _, [] => []
  | fuel + 1, l => l.take n :: chunksGo n fuel (l.drop n)

/-- Split a list into chunks of `n` elements. -/
def chunks (n : Nat) (l : List α) : List (List α) := chunksGo n l.length l

/-- Big-endian word from a list of bytes. -/
def wordOfBytes (l : List Nat) : Nat := l.foldl (fun a b => a * 256 + b) 0

/-- Takes `k` big-endian bytes of `n`. -/
def beBytes (n : Nat) : Nat → List Nat
  | 0 => []
  | k + 1 => beBytes (n / 256) k ++ [n % 256]

/-- One step of the SHA-512 message-schedule extension. -/
def scheduleStep (w : List Nat) : List Nat :=
  let t := w.length
  w ++ [(w.getD (t - 16) 0 + smallSigma0 (w.getD (t - 15) 0) +
         w.getD (t - 7) 0 + smallSigma1 (w.getD (t - 2) 0)) % M64]

/-- Extend the 16 block words to the 80 schedule words. -/
def schedule (w : List Nat) : List Nat := scheduleStep^[64] w

/-- One SHA-512 round on the state `[a, b, c, d, e, f, g, h]`. -/
def sha512Round (st : List Nat) (kw : Nat × Nat) : List Nat :=
  match st with
  | [a, b, c, d, e, f, g, h] =>
    let t1 := (h + bigSigma1 e + chFn e f g + kw.1 + kw.2) % M64
    let t2 := (bigSigma0 a + majFn a b c) % M64
    [(t1 + t2) % M64, a, b, c, (d + t1) % M64, e, f, g]
  | _ => st

/-- Compress one 128-byte block into the running state. -/
def sha512Compress (st : List Nat) (block : List Nat) : List Nat :=
  let w := schedule ((chunks 8 block).map wordOfBytes)
  let st2 := (sha512K.zip w).foldl sha512Round st
  (st.zip st2).map (fun p => (p.1 + p.2) % M64)

/-- SHA-512 digest (64 bytes) of a byte list. -/
def sha512Bytes (msg : List Nat) : List Nat :=
  let padded := msg ++ [0x80] ++ List.replicate ((239 - msg.length % 128) % 128) 0 ++
    beBytes (8 * msg.length) 16
  let final := (chunks 128 padded).foldl sha512Compress sha512H0
  (final.map (fun x => beBytes x 8)).flatten

/-- HMAC-SHA512 digest (64 bytes); the block size of SHA-512 is 128 bytes. -/
def hmacSha512 (key msg : List Nat) : List Nat :=
  let k0 := if 128 < key.length then sha512Bytes key else key
  let kp := k0 ++ List.replicate (128 - k0.length) 0
  let ipad := kp.map (fun b => b ^^^ 0x36)
  let opad := kp.map (fun b => b ^^^ 0x5c)
  sha512Bytes (opad ++ sha512Bytes (ipad ++ msg))

/-- Embeds `hmac.new(key, msg, hashlib.sha512).hexdigest()` over the UTF-8 bytes of key and message. -/
def hmacSha512Hex (key msg : String) : String :=
  hexOfBytes (hmacSha512 (utf8 key) (utf8 msg))

/-! ## The connector (`aroflo_connector.py`)

`AroFloConnector.__init__` stores the four credential strings and an
optional host IP.  `datetime.now(timezone.utc)` is modelled by passing a
`UTCTime` value; the HTTP transport of `request` is modelled by an oracle
`Nat → Outcome` giving, for each attempt index, either a raised
`requests.RequestException` or a parsed JSON body. -/

/-- A connector instance: the credential fields of `AroFloConnector.__init__`. -/
structure Connector where
  org_encoded : String
  u_encoded : String
  p_encoded : String
  secret_key : String
  host_ip : Option String

/-- Python truthiness of `self.host_ip` (`None` and the empty string are falsy). -/
def hostTruthy (c : Connector) : Bool :=
  match c.host_ip with
  | none => false
  | some s => !(s == "")

/-- The configured host IP, defaulting to the empty string. -/
def hostIpStr (c : Connector) : String := c.host_ip.getD ""

/-- Embeds `all([self.org_encoded, self.u_encoded, self.secret_key])` from
`request`: the credential precondition.  Note `p_encoded` is absent. -/
def credentialsOk (c : Connector) : Bool :=
  !(c.org_encoded == "") && !(c.u_encoded == "") && !(c.secret_key == "")

/-- A UTC instant as the components read by `strftime` and `.microsecond`. -/
structure UTCTime where
  year : Nat
  month : Nat
  day : Nat
  hour : Nat
  minute : Nat
  second : Nat
  microsecond : Nat

/-- Zero-pad the decimal form of `n` to `width` characters. -/
def padNum (width n : Nat) : String :=
  let s := toString n
  (⟨List.replicate (width - s.length) '0'⟩ : String) ++ s

/-- Embeds the timestamp build of `_generate_auth`: `strftime` with the
pattern `%Y-%m-%dT%H:%M:%S`, then a dot, the three-digit zero-padded
`microsecond // 1000`, and `Z` — milliseconds by floor division. -/
def formatTimestamp (t : UTCTime) : String :=
  padNum 4 t.year ++ "-" ++ padNum 2 t.month ++ "-" ++ padNum 2 t.day ++ "T" ++
  padNum 2 t.hour ++ ":" ++ padNum 2 t.minute ++ ":" ++ padNum 2 t.second ++
  "." ++ padNum 3 (t.microsecond / 1000) ++ "Z"

/-- Python `sep.join(list)`. -/
def joinSep (sep : String) : List String → String
  | [] => ""
  | [s] => s
  | s :: t :: rest => s ++ sep ++ joinSep sep (t :: rest)

/-- The `Authorization` string of `_generate_auth`:
`f"uencoded={u}&pencoded={p}&orgEncoded={org}"` with URL-encoded parts. -/
def authStringOf (c : Connector) : String :=
  "uencoded=" ++ urlquote c.u_encoded ++ "&pencoded=" ++ urlquote c.p_encoded ++
    "&orgEncoded=" ++ urlquote c.org_encoded

/-- The payload list of `_generate_auth`: `[request_type]`, the host IP when
truthy, then `url_path` (always empty), accept, auth string, timestamp and
query string. -/
def signPayload (c : Connector) (accept varString timestamp : String) : List String :=
  let payload := ["GET"]
  let payload := if hostTruthy c then payload ++ [hostIpStr c] else payload
  payload ++ ["", accept, authStringOf c, timestamp, varString]

/-- Embeds `string_to_sign`: the payload joined with plus signs. -/
def stringToSign (c : Connector) (accept varString timestamp : String) : String :=
  joinSep "+" (signPayload c accept varString timestamp)

/-- The headers dict built by `_generate_auth`. -/
structure AuthHeaders where
  accept : String
  authentication : String
  authorization : String
  afdatetimeutc : String
  hostIP : Option String

/-- Embeds `_generate_auth(var_string, accept)` at UTC instant `now`. -/
def generateAuth (c : Connector) (varString accept : String) (now : UTCTime) : AuthHeaders :=
  let timestamp := formatTimestamp now
  let signature := hmacSha512Hex c.secret_key (stringToSign c accept varString timestamp)
  { accept := accept
    authentication := "HMAC " ++ signature
    authorization := authStringOf c
    afdatetimeutc := timestamp
    hostIP := if hostTruthy c then some (hostIpStr c) else none }

/-- A parsed JSON response body, restricted to the fields `request` reads:
`error` (`none` when the key is absent), `status` and `statusmessage`. -/
structure ApiBody where
  errorField : Option String
  status : Option String
  statusmessage : Option String
deriving DecidableEq

/-- Reads the `error` field when truthy (a present, non-empty value). -/
def truthyError (b : ApiBody) : Option String :=
  match b.errorField with
  | some s => if s == "" then none else some s
  | none => none

/-- The outcome of one HTTP attempt: a raised `requests.RequestException`
(connection error, timeout, or `raise_for_status` on a 5xx), or a parsed
body. -/
inductive Outcome where
  | transport (e : String)
  | success (b : ApiBody)
deriving DecidableEq

/-- Whether an attempt outcome is a raised transport exception. -/
def Outcome.isTransport : Outcome → Bool
  | .transport _ => true
  | .success _ => false

/-- What `request` produces: a returned body, or one of the raised errors.
`configError` is the `ValueError` for missing credentials, `apiError` the
`ValueError` for an application-error body, `transportError` the re-raised
last transport exception, and `exhaustedError` the fallback
`ValueError("Request failed after all retries")`. -/
inductive ReqResult where
  | ok (b : ApiBody)
  | configError
  | apiError (msg : String)
  | transportError (e : String)
  | exhaustedError
deriving DecidableEq

/-- The application-error sentinel: a truthy top-level `error` field, or
`status == "-99999"`. -/
def isSentinel (b : ApiBody) : Bool :=
  (truthyError b).isSome || b.status == some "-99999"

/-- The in-`try` handling of a parsed body in `request`: raise `ValueError`
on the sentinel (propagating out of the retry loop, since only
`requests.RequestException` is caught), else return the body. -/
def checkBody (b : ApiBody) : ReqResult :=
  match truthyError b with
  | some e => .apiError ("API Error: " ++ e)
  | none =>
    if b.status == some "-99999" then
      .apiError ("API Error: " ++ b.statusmessage.getD "Authentication failed")
    else .ok b

/-- The `for attempt in range(retries)` loop of `request`.  The second
component counts HTTP calls made; the oracle is indexed by attempt number.
A transport exception is recorded in `last_error` and retried; a parsed
body is handled by `checkBody` and ends the loop. -/
def attemptLoop (outcomes : Nat → Outcome) : Nat → Nat → Option String → ReqResult × Nat
  | 0, calls, last =>
    (match last with
     | some e => .transportError e
     | none => .exhaustedError, calls)
  | fuel + 1, calls, _last =>
    match outcomes calls with
    | .transport e => attemptLoop outcomes fuel (calls + 1) (some e)
    | .success b => (checkBody b, calls + 1)

/-- The query string built by `request`:
`zone=<quoted zone>` then `key=<quoted value>` per param, joined by `&`. -/
def varStringOf (zone : String) (params : List (String × String)) : String :=
  joinSep "&" (("zone=" ++ urlquote zone) :: params.map (fun p => p.1 ++ "=" ++ urlquote p.2))

/-- Embeds `AroFloConnector.request(zone, params, retries)`: the credential check
precedes the query-string build, rate limiting and the retry loop; per-
attempt auth generation and transport are summarised by the oracle.  The
second component is the number of HTTP calls made. -/
def request (c : Connector) (zone : String) (params : List (String × String))
    (retries : Nat) (outcomes : Nat → Outcome) : ReqResult × Nat :=
  if credentialsOk c then
    let _varString := varStringOf zone params
    attemptLoop outcomes retries 0 none
  else
    (.configError, 0)

/-- The default of the `retries` parameter of `request`. -/
def defaultRetries : Nat := 3

/-! ## The data extractor (`data_extractor.py`)

Python floats are embedded as exact rationals `ℚ`. -/

/-- The `MonthlyMetrics` dataclass with its default field values. -/
structure MonthlyMetrics where
  revenue : ℚ := 0
  materials_cost : ℚ := 0
  labour_cost : ℚ := 0
  gross_profit_dollars : ℚ := 0
  net_profit_dollars : ℚ := 0
  gross_profit_percent : ℚ := 0
  net_profit_percent : ℚ := 0
  completed_jobs : Nat := 0
  average_job_value : ℚ := 0
  primary_client_jobs : Nat := 0
  primary_client_value : ℚ := 0
  other_client_jobs : Nat := 0
  other_client_value : ℚ := 0
  jobs_total : ℚ := 0
  primary_client_percent : ℚ := 0
  other_client_percent : ℚ := 0
deriving DecidableEq

/-- Embeds `MonthlyMetrics.calculate_derived_metrics`: division guarded by
`> 0` checks, all other derived fields set unconditionally. -/
def calculateDerivedMetrics (m : MonthlyMetrics) : MonthlyMetrics :=
  let gross := m.revenue - m.materials_cost
  let net := m.revenue - m.materials_cost - m.labour_cost
  let gpp := if 0 < m.revenue then gross / m.revenue * 100 else 0
  let npp := if 0 < m.revenue then net / m.revenue * 100 else 0
  let ajv := if 0 < m.completed_jobs then m.revenue / (m.completed_jobs : ℚ) else 0
  let jt := m.primary_client_value + m.other_client_value
  let pcp := if 0 < jt then m.primary_client_value / jt * 100 else 0
  let ocp := if 0 < jt then m.other_client_value / jt * 100 else 0
  { m with
    gross_profit_dollars := gross
    net_profit_dollars := net
    gross_profit_percent := gpp
    net_profit_percent := npp
    average_job_value := ajv
    jobs_total := jt
    primary_client_percent := pcp
    other_client_percent := ocp }

/-- Whether the first list is a prefix of the second (as a Bool). -/
def isPrefixOfChars : List Char → List Char → Bool
  | [], _ => true
  | _ :: _, [] => false
  | a :: as, b :: bs => a == b && isPrefixOfChars as bs

/-- Python substring containment `needle in hay` on character lists. -/
def isInfixOfChars (needle : List Char) : List Char → Bool
  | [] => isPrefixOfChars needle []
  | c :: rest => isPrefixOfChars needle (c :: rest) || isInfixOfChars needle rest

/-- Embeds `DataExtractor._is_primary_client`: false on a falsy client name or a
falsy configured primary client, else case-insensitive substring
containment of the primary client in the client name. -/
def isPrimaryClient (primaryClient clientName : String) : Bool :=
  if clientName == "" || primaryClient == "" then false
  else isInfixOfChars (primaryClient.toLower.data) (clientName.toLower.data)

/-- One invoice line item, with the resolved amount
`item.get("totalexgst", 0) or item.get("amount", 0) or 0`. -/
structure LineItem where
  type : String
  amount : ℚ

/-- An invoice, restricted to the fields `get_monthly_report` reads:
`totalexgst`, the line-item list, `clientname`, and
`invoice.get("client", {}).get("name", "")`. -/
structure Invoice where
  totalexgst : ℚ
  lineitems : List LineItem
  clientname : String
  clientNestedName : String

/-- Embeds `DataExtractor._process_invoice_line_items`: classify each line item by
its lower-cased `type` into materials or labour and sum. -/
def processInvoiceLineItems (inv : Invoice) : ℚ × ℚ × ℚ :=
  let step := fun (acc : ℚ × ℚ) (item : LineItem) =>
    let t := (⟨item.type.data.map Char.toLower⟩ : String)
    if t == "material" || t == "materials" || t == "stock" then
      (acc.1 + item.amount, acc.2)
    else if t == "labour" || t == "labor" || t == "time" then
      (acc.1, acc.2 + item.amount)
    else acc
  let costs := inv.lineitems.foldl step (0, 0)
  (inv.totalexgst, costs.1, costs.2)

/-- Embeds the client-name fallback: the `clientname` field when truthy, else the nested client name. -/
def invoiceClientName (inv : Invoice) : String :=
  if inv.clientname == "" then inv.clientNestedName else inv.clientname

/-- The body of the invoice loop in `get_monthly_report`: accumulate
revenue, costs and the completed-job count, then add the invoice total to
exactly one of the two client buckets.  The source accumulates IEEE
doubles with `+=`; here the additions are exact rational additions, so
binary64 rounding is not modelled. -/
def processInvoice (primaryClient : String) (m : MonthlyMetrics) (inv : Invoice) :
    MonthlyMetrics :=
  let parts := processInvoiceLineItems inv
  let m := { m with
    revenue := m.revenue + parts.1
    materials_cost := m.materials_cost + parts.2.1
    labour_cost := m.labour_cost + parts.2.2
    completed_jobs := m.completed_jobs + 1 }
  if isPrimaryClient primaryClient (invoiceClientName inv) then
    { m with
      primary_client_jobs := m.primary_client_jobs + 1
      primary_client_value := m.primary_client_value + parts.1 }
  else
    { m with
      other_client_jobs := m.other_client_jobs + 1
      other_client_value := m.other_client_value + parts.1 }

/-- The accumulation phase of `get_monthly_report` over a fetched invoice
list, followed by `calculate_derived_metrics`. -/
def monthlyReportOf (primaryClient : String) (invoices : List Invoice) : MonthlyMetrics :=
  calculateDerivedMetrics (invoices.foldl (processInvoice primaryClient) {})

/-- One page response as read by `_fetch_all_pages`: the extracted item
list (from whichever of the known keys is present; `[]` when none) and
`response.get("totalpages", 1)`. -/
structure PageResponse where
  items : List Nat
  totalpages : Nat

/-- The `while True` pagination loop of `_fetch_all_pages`, fuelled:
`none` means the loop is still running after `fuel` iterations.  Stops
with the accumulated items when a page yields no items, or after adding a
page when `page >= totalpages`. -/
def fetchPagesGo (resp : Nat → PageResponse) : Nat → Nat → List Nat → Option (List Nat)
  | 0, _, _ => none
  | fuel + 1, page, acc =>
    let r := resp page
    if r.items.isEmpty then some acc
    else
      let acc2 := acc ++ r.items
      if r.totalpages ≤ page then some acc2
      else fetchPagesGo resp fuel (page + 1) acc2

/-- Embeds `_fetch_all_pages` starting from `page = 1`, observed for `fuel`
iterations. -/
def fetchAllPages (resp : Nat → PageResponse) (fuel : Nat) : Option (List Nat) :=
  fetchPagesGo resp fuel 1 []

/-! ## The spreadsheet updater (`spreadsheet_updater.py`)

File-system effects are modelled by an environment recording whether the
workbook exists and which of the four fallible steps (backup, load, cell
writes, save) raises, with the message it raises. -/

/-- Embeds `MONTH_COLUMN_MAP`, reduced to month number and `actual` column. -/
def monthColumnMap : List (Nat × Nat) :=
  [(11, 5), (12, 7), (1, 9), (2, 11), (3, 13), (4, 15), (5, 17), (6, 19),
   (7, 21), (8, 23), (9, 25), (10, 27)]

/-- The file-system environment of one `update_spreadsheet` call. -/
structure FsEnv where
  fileExists : Bool
  backupErr : Option String
  loadErr : Option String
  writeErr : Option String
  saveErr : Option String

/-- Embeds `SpreadsheetUpdater.update_spreadsheet(metrics, month, create_backup)`:
missing file short-circuits to `False`; the `try` block runs backup, load,
column lookup (`_get_actual_column` raises `ValueError` on a month outside
the map), cell writes, and save, and `except Exception` converts any raise
into a logged `False`.  Returns the success flag and the log lines. -/
def updateSpreadsheet (_metrics : MonthlyMetrics) (env : FsEnv) (month : Nat)
    (createBackup : Bool) : Bool × List String :=
  if !env.fileExists then
    (false, ["Error: Spreadsheet not found"])
  else
    match (if createBackup then env.backupErr else none) with
    | some e => (false, ["Error updating spreadsheet: " ++ e])
    | none =>
      match env.loadErr with
      | some e => (false, ["Error updating spreadsheet: " ++ e])
      | none =>
        match monthColumnMap.lookup month with
        | none =>
          (false, ["Error updating spreadsheet: Invalid month: " ++ toString month ++
            ". Must be 1-12."])
        | some _col =>
          match env.writeErr with
          | some e => (false, ["Error updating spreadsheet: " ++ e])
          | none =>
            match env.saveErr with
            | some e => (false, ["Error updating spreadsheet: " ++ e])
            | none => (true, ["Spreadsheet updated successfully!"])

/-! ## The proofreader (`proofreader.py`)

The LanguageTool HTTP call is external; `_check_text_languagetool_api` is
embedded from the point where the parsed `matches` array is in hand, i.e.
as a function of the submitted (stage-1 pre-corrected) text and the match
list.  Apostrophes in table literals are written with the `\x27` escape. -/

/-- Embeds `Proofreader.TRADE_TERMS` (a set; the lowercased flagged token is
tested for membership). -/
def tradeTerms : List String :=
  ["gpo", "gpos", "rcbo", "rcd", "mcb", "db", "dbs", "led", "leds",
   "estop", "e-stop", "thermalscan", "submain", "submains",
   "busbar", "busbars", "switchgear", "powerpoint", "powerpoints",
   "reterminate", "reterminated", "highbay", "breezeway",
   "wifi", "3ph", "1ph", "fitoff", "fit-off", "lunchroom",
   "makita", "dewalt", "metabo", "bosch", "hilti", "milwaukee",
   "ryobi", "festool", "hikoki", "hitachi", "telstra",
   "haas", "hass",
   "wacol", "archerfield", "richlands", "rochedale", "stapylton",
   "karalee", "bremer", "redbank", "buranda",
   "fluoro", "fluoros", "fluro", "callout", "callouts",
   "donga", "dongas", "spartan", "reece", "angus",
   "power point"]

/-- Embeds `Proofreader.PROTECTED_WORDS`. -/
def protectedWords : List String :=
  ["into", "onto", "for", "of", "the", "and", "or", "to", "in", "on",
   "at", "by", "with", "from", "as", "is", "it", "be", "was", "were",
   "been", "being", "have", "has", "had", "do", "does", "did", "will",
   "would", "could", "should", "may", "might", "must", "shall", "can",
   "go", "went", "gone", "follow", "followed", "following",
   "circuits", "circuit", "found", "find",
   "before", "after", "tightened", "tight"]

/-- Embeds `Proofreader.CUSTOM_CORRECTIONS`, in dict insertion order. -/
def customCorrections : List (String × String) :=
  [("lense", "lens"),
   ("lenses", "lenses"),
   ("archefield", "Archerfield"),
   ("hass", "Haas"),
   ("imput", "input"),
   ("prosessor", "processor"),
   ("conection", "connection"),
   ("dissasemble", "disassemble"),
   ("recieving", "receiving"),
   ("outler", "outlet"),
   ("wasnt", "wasn\x27t"),
   ("didnt", "didn\x27t"),
   ("did\x27nt", "didn\x27t"),
   ("couldnt", "couldn\x27t"),
   ("wouldnt", "wouldn\x27t"),
   ("shouldnt", "shouldn\x27t"),
   ("isnt", "isn\x27t"),
   ("arent", "aren\x27t"),
   ("werent", "weren\x27t"),
   ("hasnt", "hasn\x27t"),
   ("havent", "haven\x27t"),
   ("hadnt", "hadn\x27t"),
   ("dont", "don\x27t"),
   ("wont", "won\x27t"),
   ("cant", "can\x27t"),
   ("its", "it\x27s"),
   ("andi", "and I"),
   ("thier", "their"),
   ("teh", "the"),
   ("taht", "that"),
   ("wiht", "with"),
   ("adn", "and"),
   ("hte", "the"),
   ("fo", "of"),
   ("nad", "and"),
   ("tiem", "time"),
   ("jsut", "just"),
   ("nto", "not"),
   ("ahve", "have"),
   ("waht", "what"),
   ("shoudl", "should"),
   ("woudl", "would"),
   ("coudl", "could")]

/-- Embeds `Proofreader.REJECT_SUGGESTIONS`. -/
def rejectSuggestions : List (String × List String) :=
  [("powerpoint", ["PowerPoint"]),
   ("power point", ["PowerPoint"]),
   ("haas", ["has", "mass", "pass"]),
   ("hass", ["has", "mass", "pass"]),
   ("lense", ["sense", "dense", "lease"]),
   ("archefield", ["Wakefield", "archfiend"])]

/-- The `common_words_to_skip` literal inside the match loop. -/
def commonWordsToSkip : List String :=
  ["for", "of", "or", "to", "the", "and", "a", "an", "in", "on", "at",
   "by", "with", "from", "as", "is", "it", "be", "was", "were", "are",
   "into", "onto", "follow", "followed", "following", "go", "went"]

/-- The `bad_replacements` literal inside the match loop. -/
def badReplacements : List String :=
  ["of", "or", "for", "to", "not", "knot", "on", "an", "in", "at",
   "goo", "allow", "fellow", "flow",
   "ofr", "ofllow", "fro", "fo", "ot", "ont", "nto",
   "go not", "goo not"]

/-- The rule ids skipped as too picky. -/
def ruleDenylist : List String := ["WHITESPACE_RULE", "UPPERCASE_SENTENCE_START"]

/-- Python slice `l[off : off + len]` on code points. -/
def sliceChars (l : List Char) (off len : Nat) : List Char := (l.drop off).take len

/-- Python `str.lower()` on code points. -/
def toLowerChars (l : List Char) : List Char := l.map Char.toLower

/-- Python `str.strip()`: drop whitespace from both ends. -/
def stripChars (l : List Char) : List Char :=
  ((l.dropWhile Char.isWhitespace).reverse.dropWhile Char.isWhitespace).reverse

/-- Python string lower. -/
def lowerStr (s : String) : String := ⟨toLowerChars s.data⟩

/-- Python string strip. -/
def stripStr (s : String) : String := ⟨stripChars s.data⟩

/-- One LanguageTool match, restricted to the fields the loop reads. -/
structure LTMatch where
  offset : Nat
  length : Nat
  replacements : List String
  message : String
  rule_id : String

/-- One recorded `error_info` dict. -/
structure ErrInfo where
  message : String
  context : String
  suggestions : List String
  rule_id : String
  offset : Nat
  length : Nat
deriving DecidableEq

/-- Embeds the flagged word: the slice of the checked text at the match span, lowered and stripped. -/
def flaggedWordOf (pre : String) (m : LTMatch) : String :=
  ⟨stripChars (toLowerChars (sliceChars pre.data m.offset m.length))⟩

/-- Tests whether the flagged word ends with apostrophe-s. -/
def endsAposS (s : String) : Bool :=
  isPrefixOfChars ("\x27s".data.reverse) s.data.reverse

/-- Tests whether a suggestion contains apostrophe-s. -/
def containsAposS (s : String) : Bool := isInfixOfChars "\x27s".data s.data

/-- The consonant-cluster regex (three or more leading characters of the
class `bcdfghjklmnpqrstvwxz`, anchored at the start) applied to the
lowered suggestion: it matches exactly when the first three characters
are all in the class. -/
def consonant3Start (s : String) : Bool :=
  match toLowerChars s.data with
  | a :: b :: c :: _ =>
    "bcdfghjklmnpqrstvwxz".data.contains a &&
    "bcdfghjklmnpqrstvwxz".data.contains b &&
    "bcdfghjklmnpqrstvwxz".data.contains c
  | _ => false

/-- The filter chain of the match loop in `_check_text_languagetool_api`:
rule denylist, trade terms, protected words, take-3 suggestions, per-word
rejection list, possessive-apostrophe filter, common-word skip,
bad-replacement filter, consonant-cluster filter, and custom-correction
override.  `none` means `continue` (the match is dropped); `some` carries
the final suggestion list of a surviving match. -/
def filterSuggestions (pre : String) (m : LTMatch) : Option (List String) :=
  if ruleDenylist.contains m.rule_id then none
  else
    let flagged := flaggedWordOf pre m
    if tradeTerms.contains flagged then none
    else if protectedWords.contains flagged then none
    else
      let s0 := m.replacements.take 3
      let rej := rejectSuggestions.lookup flagged
      let s1 := match rej with
                | some rejected => s0.filter (fun s => !rejected.contains s)
                | none => s0
      if rej.isSome && s1.isEmpty then none
      else
        let s2 := if endsAposS flagged then s1 else s1.filter (fun x => !containsAposS x)
        if !endsAposS flagged && s2.isEmpty then none
        else if commonWordsToSkip.contains flagged then none
        else
          let s3 := s2.filter (fun x => !badReplacements.contains (lowerStr x))
          if s3.isEmpty then none
          else
            let s4 := s3.filter (fun x => !consonant3Start x)
            if s4.isEmpty then none
            else
              match customCorrections.lookup flagged with
              | some custom =>
                some (custom :: s4.filter (fun x => !(lowerStr x == lowerStr custom)))
              | none => some s4

/-- The `error_info` dict recorded for a surviving match; the context is
`pre_corrected[max(0, offset-10) : offset+length+10]`. -/
def mkErrInfo (pre : String) (m : LTMatch) (suggestions : List String) : ErrInfo :=
  { message := m.message
    context := ⟨sliceChars pre.data (m.offset - 10) (m.offset + m.length + 10 - (m.offset - 10))⟩
    suggestions := suggestions
    rule_id := m.rule_id
    offset := m.offset
    length := m.length }

/-- Embeds the in-place substitution: replace the span at the given offset and length by the suggestion. -/
def applyRepl (c : String) (r : Nat × Nat × String) : String :=
  ⟨c.data.take r.1 ++ r.2.2.data ++ c.data.drop (r.1 + r.2.1)⟩

/-- The `for match in reversed(matches)` loop body: drop a match that the
filter chain rejects; otherwise append its `error_info` and, when the
suggestion list is non-empty, substitute the top suggestion into the
running corrected text. -/
def ltLoop (pre : String) : List LTMatch → String → List ErrInfo → String × List ErrInfo
  | [], corrected, errors => (corrected, errors)
  | m :: rest, corrected, errors =>
    match filterSuggestions pre m with
    | none => ltLoop pre rest corrected errors
    | some suggs =>
      let errors2 := errors ++ [mkErrInfo pre m suggs]
      let corrected2 :=
        if suggs.isEmpty then corrected
        else applyRepl corrected (m.offset, m.length, suggs.headD "")
      ltLoop pre rest corrected2 errors2

/-- The core of `_check_text_languagetool_api` given the pre-corrected
text and the parsed `matches` array: process the matches in reversed
order starting from `corrected = pre_corrected` and `errors = []`, then
reverse the error list. -/
def checkTextLT (pre : String) (ms : List LTMatch) : String × List ErrInfo :=
  let res := ltLoop pre ms.reverse pre []
  (res.1, res.2.reverse)

/-- The replacement performed by a surviving match (offset, length, top
suggestion), `none` when the match is dropped or has no suggestions. -/
def survivingRepl (pre : String) (m : LTMatch) : Option (Nat × Nat × String) :=
  match filterSuggestions pre m with
  | some suggs => if suggs.isEmpty then none else some (m.offset, m.length, suggs.headD "")
  | none => none

/-- The diagnostic recorded for a match, `none` when it is dropped. -/
def recordedErr (pre : String) (m : LTMatch) : Option ErrInfo :=
  (filterSuggestions pre m).map (mkErrInfo pre m)

/-! ### Job records and `proofread_job` -/

/-- The value of `job["notes"]`: absent, a string, or a dict whose `note`
entries carry the given text values. -/
inductive NotesField where
  | absent
  | str (s : String)
  | dict (texts : List String)

/-- A job/task record, restricted to the keys `proofread_job` and
`_extract_text_from_job` read; `none` models an absent key. -/
structure Job where
  idField : Option String
  jobid : Option String
  taskid : Option String
  nameField : Option String
  jobname : Option String
  taskname : Option String
  description : Option String
  notes : NotesField
  tasknotes : Option String
  task_notes : Option String
  workperformed : Option String
  work_performed : Option String
  comments : Option String
  details : Option String
  summary : Option String
  labour_notes : Option String

/-- The contribution of one text field to `text_parts`:
`if value and isinstance(value, str) and value.strip(): append(value.strip())`. -/
def fieldPart (v : Option String) : List String :=
  match v with
  | some s => if !(s == "") && !(stripStr s == "") then [stripStr s] else []
  | none => []

/-- The `notes` entry of the field loop: contributes only when the value
is a (truthy) string. -/
def notesPart : NotesField → List String
  | .str s => if !(s == "") && !(stripStr s == "") then [stripStr s] else []
  | _ => []

/-- The nested-notes pass: when `job["notes"]` is a dict, append each
`note["text"]` that is truthy (raw, not stripped). -/
def notesDictParts : NotesField → List String
  | .dict texts => texts.filter (fun t => !(t == ""))
  | _ => []

/-- Embeds `Proofreader._extract_text_from_job`: the fixed field order, then the
nested notes, joined by blank lines. -/
def extractTextFromJob (j : Job) : String :=
  let parts := fieldPart j.description ++ notesPart j.notes ++ fieldPart j.tasknotes ++
    fieldPart j.task_notes ++ fieldPart j.workperformed ++ fieldPart j.work_performed ++
    fieldPart j.comments ++ fieldPart j.details ++ fieldPart j.summary ++
    fieldPart j.labour_notes ++ notesDictParts j.notes
  joinSep "\n\n" parts

/-- Embeds the job id fallback chain: `id`, then `jobid`, then `taskid`, else `unknown`. -/
def jobIdOf (j : Job) : String :=
  match j.idField with
  | some s => s
  | none =>
    match j.jobid with
    | some s => s
    | none => j.taskid.getD "unknown"

/-- Embeds the job name fallback chain: `name`, then `jobname`, then `taskname`, else `Unnamed Job`. -/
def jobNameOf (j : Job) : String :=
  match j.nameField with
  | some s => s
  | none =>
    match j.jobname with
    | some s => s
    | none => j.taskname.getD "Unnamed Job"

/-- The `ProofreadResult` dataclass. -/
structure ProofreadResult where
  job_id : String
  job_name : String
  original_text : String
  corrected_text : String
  errors : List ErrInfo
  has_errors : Bool

/-- Embeds `Proofreader.proofread_job`, with `_check_text` abstracted as the
`check` oracle.  The second component counts checker invocations: a job
with no extractable text returns the empty result without calling the
checker. -/
def proofreadJob (check : String → String × List ErrInfo) (j : Job) :
    ProofreadResult × Nat :=
  let text := extractTextFromJob j
  if text == "" then
    ({ job_id := jobIdOf j, job_name := jobNameOf j, original_text := "",
       corrected_text := "", errors := [], has_errors := false }, 0)
  else
    let res := check text
    ({ job_id := jobIdOf j, job_name := jobNameOf j, original_text := text,
       corrected_text := res.1, errors := res.2,
       has_errors := decide (0 < res.2.length) }, 1)

/-! ## Shared helper lemmas -/

/-- Appending on the left is cancellative for strings. -/
theorem strAppendLeftCancel {a x y : String} (h : a ++ x = a ++ y) : x = y := by
  apply String.ext
  have hd := congrArg String.data h
  rw [String.data_append, String.data_append] at hd
  exact List.append_cancel_left hd

/-- Appending on the right is cancellative for strings. -/
theorem strAppendRightCancel {s x y : String} (h : x ++ s = y ++ s) : x = y := by
  apply String.ext
  have hd := congrArg String.data h
  rw [String.data_append, String.data_append] at hd
  exact List.append_cancel_right hd

/-- Unfolds `joinSep` on a cons with a non-empty tail. -/
theorem joinSep_cons_ne_nil (sep s : String) {l : List String} (h : l ≠ []) :
    joinSep sep (s :: l) = s ++ sep ++ joinSep sep l := by
  cases l with
  | nil => exact absurd rfl h
  | cons t rest => rfl

/-- Two `joinSep` strings over lists differing only in the second-to-last
entry agree only when those entries do. -/
theorem joinSep_last_two_inj (sep : String) :
    ∀ (pre : List String) (t1 t2 suf : String),
      joinSep sep (pre ++ [t1, suf]) = joinSep sep (pre ++ [t2, suf]) →
      t1 ++ sep ++ suf = t2 ++ sep ++ suf := by
  intro pre
  induction pre with
  | nil => intro t1 t2 suf h; simpa [joinSep] using h
  | cons p rest ih =>
    intro t1 t2 suf h
    rw [List.cons_append, List.cons_append,
      joinSep_cons_ne_nil sep p (by simp), joinSep_cons_ne_nil sep p (by simp)] at h
    exact ih t1 t2 suf (strAppendLeftCancel (strAppendLeftCancel
      (by simpa [String.append_assoc] using h)))

/-- A successful association-list lookup exhibits a member. -/
theorem lookup_some_mem {l : List (Nat × Nat)} {k v : Nat} (h : l.lookup k = some v) :
    (k, v) ∈ l := by
  induction l with
  | nil => simp [List.lookup] at h
  | cons p rest ih =>
    rcases p with ⟨a, b⟩
    rw [List.lookup] at h
    by_cases hk : k == a
    · rw [hk] at h
      simp only [Option.some.injEq] at h
      simp [beq_iff_eq.mp hk, h]
    · simp only [Bool.not_eq_true] at hk
      rw [hk] at h
      exact List.mem_cons_of_mem _ (ih h)

/-- The map `filterMap` commutes with `reverse`. -/
theorem filterMap_reverse_comm {α β} (f : α → Option β) (l : List α) :
    l.reverse.filterMap f = (l.filterMap f).reverse := by
  induction l with
  | nil => rfl
  | cons a rest ih =>
    cases h : f a <;>
      simp [List.filterMap_append, List.filterMap_cons, h, ih]

/-! ## C1 -/

/-- A connector whose only empty required credential is the password token. -/
def noPasswordConnector : Connector :=
  { org_encoded := "org", u_encoded := "user", p_encoded := "", secret_key := "secret",
    host_ip := none }

/-- A parsed body carrying no error sentinel. -/
def okBody : ApiBody := { errorField := none, status := none, statusmessage := none }

/-- C1, counterexample: with the password token empty (and the other
credential fields set), `request` does not raise the credential error and
performs an HTTP call — the claimed "any required credential field
(including the password token) empty implies ConfigError before any
network attempt" is false on the code, because the check
`all([org_encoded, u_encoded, secret_key])` omits `p_encoded`. -/
theorem credential_check_skips_password :
    (request noPasswordConnector "invoices" [] 3 (fun _ => Outcome.success okBody)).1 ≠
      ReqResult.configError ∧
    (request noPasswordConnector "invoices" [] 3 (fun _ => Outcome.success okBody)).2 = 1 := by
  exact ⟨by decide, rfl⟩

/-- C1, amended: if the org id, user id, or secret key is empty, `request`
raises the credential `ValueError` before any network attempt — zero HTTP
calls — for every zone, params, retry count and transport behaviour; the
password token is not part of the check. -/
theorem request_missing_credentials (c : Connector) (zone : String)
    (params : List (String × String)) (retries : Nat) (outcomes : Nat → Outcome)
    (h : c.org_encoded = "" ∨ c.u_encoded = "" ∨ c.secret_key = "") :
    request c zone params retries outcomes = (ReqResult.configError, 0) := by
  have hc : credentialsOk c = false := by
    rcases h with h | h | h <;> simp [credentialsOk, h]
  simp [request, hc]

/-- Witness for the amended C1 theorem at a concrete connector with an
empty org id. -/
theorem request_missing_credentials_witness :
    request
        { org_encoded := "", u_encoded := "u", p_encoded := "p", secret_key := "s",
          host_ip := none }
        "invoices" [] 3 (fun _ => Outcome.success okBody) =
      (ReqResult.configError, 0) :=
  request_missing_credentials _ _ _ _ _ (Or.inl rfl)

/-! ## C5

The claim concludes the exact identity
`primary_client_value + other_client_value == revenue` between three
IEEE-double summations performed in different orders; binary64 rounding
can break that identity, and float semantics is not modelled here (the
embedding adds invoice totals as exact rationals).  The theorems below
are therefore development about the idealised exact-arithmetic model
only, and settle no claim about the float behaviour of the source. -/

/-- The quantity `primary_client_value + other_client_value - revenue` is
preserved by the invoice accumulation loop (exact-arithmetic model). -/
theorem processInvoice_foldl_invariant (primaryClient : String) :
    ∀ (l : List Invoice) (m : MonthlyMetrics),
      (l.foldl (processInvoice primaryClient) m).primary_client_value +
        (l.foldl (processInvoice primaryClient) m).other_client_value -
        (l.foldl (processInvoice primaryClient) m).revenue =
      m.primary_client_value + m.other_client_value - m.revenue := by
  intro l
  induction l with
  | nil => intro m; rfl
  | cons inv rest ih =>
    intro m
    rw [List.foldl_cons, ih]
    by_cases hp : isPrimaryClient primaryClient (invoiceClientName inv) = true
    · simp [processInvoice, hp]; ring
    · simp only [Bool.not_eq_true] at hp
      simp [processInvoice, hp]; ring

/-- In the exact-arithmetic model: every invoice total lands in exactly
one of the two client-value buckets (chosen by the case-insensitive
primary-client containment test) while being added to revenue, and the
monthly report satisfies
`primary_client_value + other_client_value = revenue`.  Over the IEEE
doubles the source accumulates with, the identity holds only up to
rounding of the three summation orders. -/
theorem invoice_buckets_partition_revenue (primaryClient : String)
    (invoices : List Invoice) :
    (∀ (m : MonthlyMetrics) (inv : Invoice),
      ((processInvoice primaryClient m inv).revenue = m.revenue + inv.totalexgst) ∧
      (isPrimaryClient primaryClient (invoiceClientName inv) = true →
        (processInvoice primaryClient m inv).primary_client_value =
          m.primary_client_value + inv.totalexgst ∧
        (processInvoice primaryClient m inv).other_client_value =
          m.other_client_value) ∧
      (isPrimaryClient primaryClient (invoiceClientName inv) = false →
        (processInvoice primaryClient m inv).other_client_value =
          m.other_client_value + inv.totalexgst ∧
        (processInvoice primaryClient m inv).primary_client_value =
          m.primary_client_value)) ∧
    (monthlyReportOf primaryClient invoices).primary_client_value +
        (monthlyReportOf primaryClient invoices).other_client_value =
      (monthlyReportOf primaryClient invoices).revenue := by
  constructor
  · intro m inv
    refine ⟨?_, ?_, ?_⟩
    · by_cases hp : isPrimaryClient primaryClient (invoiceClientName inv) = true
      · simp [processInvoice, processInvoiceLineItems, hp]
      · simp only [Bool.not_eq_true] at hp
        simp [processInvoice, processInvoiceLineItems, hp]
    · intro hp; simp [processInvoice, processInvoiceLineItems, hp]
    · intro hp; simp [processInvoice, processInvoiceLineItems, hp]
  · have hinv := processInvoice_foldl_invariant primaryClient invoices {}
    have hcalc : ∀ m : MonthlyMetrics,
        (calculateDerivedMetrics m).primary_client_value = m.primary_client_value ∧
        (calculateDerivedMetrics m).other_client_value = m.other_client_value ∧
        (calculateDerivedMetrics m).revenue = m.revenue := fun m => ⟨rfl, rfl, rfl⟩
    rcases hcalc (invoices.foldl (processInvoice primaryClient) {}) with ⟨h1, h2, h3⟩
    rw [monthlyReportOf, h1, h2, h3]
    have h0 : ({} : MonthlyMetrics).primary_client_value +
        ({} : MonthlyMetrics).other_client_value - ({} : MonthlyMetrics).revenue = 0 := by
      norm_num
    rw [h0] at hinv
    linarith [hinv]

/-- Evaluation of the exact-model partition identity at a concrete
two-invoice list with one invoice in each bucket. -/
theorem invoice_buckets_partition_revenue_witness :
    (monthlyReportOf "acme"
        [{ totalexgst := 10, lineitems := [], clientname := "Acme Pty Ltd",
           clientNestedName := "" },
         { totalexgst := 5, lineitems := [], clientname := "Other Co",
           clientNestedName := "" }]).primary_client_value +
      (monthlyReportOf "acme"
        [{ totalexgst := 10, lineitems := [], clientname := "Acme Pty Ltd",
           clientNestedName := "" },
         { totalexgst := 5, lineitems := [], clientname := "Other Co",
           clientNestedName := "" }]).other_client_value =
    (monthlyReportOf "acme"
        [{ totalexgst := 10, lineitems := [], clientname := "Acme Pty Ltd",
           clientNestedName := "" },
         { totalexgst := 5, lineitems := [], clientname := "Other Co",
           clientNestedName := "" }]).revenue :=
  (invoice_buckets_partition_revenue "acme" _).2

/-! ## C6 -/

/-- C6: `calculate_derived_metrics` is total (it never raises) and guards
every division: with zero revenue the profit percentages are exactly `0`,
with zero completed jobs the average job value is exactly `0`, and with a
zero jobs total both client percentages are exactly `0`. -/
theorem derived_metrics_zero_denominators (m : MonthlyMetrics) :
    ((calculateDerivedMetrics m).jobs_total =
      m.primary_client_value + m.other_client_value) ∧
    (m.revenue = 0 →
      (calculateDerivedMetrics m).gross_profit_percent = 0 ∧
      (calculateDerivedMetrics m).net_profit_percent = 0) ∧
    (m.completed_jobs = 0 →
      (calculateDerivedMetrics m).average_job_value = 0) ∧
    ((calculateDerivedMetrics m).jobs_total = 0 →
      (calculateDerivedMetrics m).primary_client_percent = 0 ∧
      (calculateDerivedMetrics m).other_client_percent = 0) := by
  refine ⟨rfl, ?_, ?_, ?_⟩
  · intro h
    simp [calculateDerivedMetrics, h]
  · intro h
    simp [calculateDerivedMetrics, h]
  · intro h
    have hjt : m.primary_client_value + m.other_client_value = 0 := h
    simp [calculateDerivedMetrics, hjt]

/-- Witness for C6 at the all-zero metrics record. -/
theorem derived_metrics_zero_denominators_witness :
    (calculateDerivedMetrics {}).gross_profit_percent = 0 ∧
    (calculateDerivedMetrics {}).net_profit_percent = 0 ∧
    (calculateDerivedMetrics {}).average_job_value = 0 ∧
    (calculateDerivedMetrics {}).primary_client_percent = 0 ∧
    (calculateDerivedMetrics {}).other_client_percent = 0 := by
  have h := derived_metrics_zero_denominators {}
  refine ⟨(h.2.1 rfl).1, (h.2.1 rfl).2, h.2.2.1 rfl, ?_, ?_⟩
  · exact (h.2.2.2 (by norm_num [calculateDerivedMetrics])).1
  · exact (h.2.2.2 (by norm_num [calculateDerivedMetrics])).2

/-! ## C9 -/

/-- C9: `update_spreadsheet` never raises (it is total); it returns `False`
when the workbook file is missing or any backup/load/write/save step
errors, it returns `True` only when every step completed (file present,
no step erring, month found in the column map), and every failing call
logs at least one line. -/
theorem update_spreadsheet_failure_contract (mtr : MonthlyMetrics) (env : FsEnv)
    (month : Nat) (cb : Bool) :
    (env.fileExists = false →
      updateSpreadsheet mtr env month cb = (false, ["Error: Spreadsheet not found"])) ∧
    ((cb = true ∧ env.backupErr ≠ none) ∨ env.loadErr ≠ none ∨ env.writeErr ≠ none ∨
        env.saveErr ≠ none →
      (updateSpreadsheet mtr env month cb).1 = false) ∧
    ((updateSpreadsheet mtr env month cb).1 = true →
      env.fileExists = true ∧ (cb = true → env.backupErr = none) ∧
        env.loadErr = none ∧ env.writeErr = none ∧ env.saveErr = none ∧
        (monthColumnMap.lookup month).isSome = true) ∧
    ((updateSpreadsheet mtr env month cb).1 = false →
      (updateSpreadsheet mtr env month cb).2 ≠ []) := by
  rcases env with ⟨fe, be, le, we, se⟩
  cases fe <;> cases cb <;> cases be <;> cases le <;> cases we <;> cases se <;>
    simp [updateSpreadsheet] <;>
    cases h : monthColumnMap.lookup month <;> simp [h] <;>
    exact ⟨_, lookup_some_mem h⟩

/-- Witness for C9 at a missing workbook file. -/
theorem update_spreadsheet_failure_contract_witness :
    updateSpreadsheet {}
        { fileExists := false, backupErr := none, loadErr := none, writeErr := none,
          saveErr := none } 1 true =
      (false, ["Error: Spreadsheet not found"]) :=
  (update_spreadsheet_failure_contract {} _ 1 true).1 rfl

/-! ## C10 -/

/-- C10: `proofread_job` always reports `has_errors` exactly when the error
list is non-empty, and a job with no extractable text yields the empty
result — empty original and corrected text, no errors, `has_errors`
false — without invoking the checker. -/
theorem proofread_job_has_errors_invariant (check : String → String × List ErrInfo)
    (j : Job) :
    ((proofreadJob check j).1.has_errors = true ↔ (proofreadJob check j).1.errors ≠ []) ∧
    (extractTextFromJob j = "" →
      proofreadJob check j =
        ({ job_id := jobIdOf j, job_name := jobNameOf j, original_text := "",
           corrected_text := "", errors := [], has_errors := false }, 0)) := by
  constructor
  · by_cases h : extractTextFromJob j = ""
    · simp [proofreadJob, h]
    · simp [proofreadJob, h, decide_eq_true_iff, List.length_pos]
  · intro h
    simp [proofreadJob, h]

/-- The empty job record: every key absent. -/
def emptyJob : Job :=
  { idField := none, jobid := none, taskid := none, nameField := none, jobname := none,
    taskname := none, description := none, notes := .absent, tasknotes := none,
    task_notes := none, workperformed := none, work_performed := none, comments := none,
    details := none, summary := none, labour_notes := none }

/-- Witness for C10 at the empty job (no extractable text). -/
theorem proofread_job_has_errors_invariant_witness :
    proofreadJob (fun t => (t, [])) emptyJob =
      ({ job_id := jobIdOf emptyJob, job_name := jobNameOf emptyJob, original_text := "",
         corrected_text := "", errors := [], has_errors := false }, 0) :=
  (proofread_job_has_errors_invariant (fun t => (t, [])) emptyJob).2 rfl

/-! ## C2 -/

/-- C2: the Authentication header of the signer is exactly `"HMAC "`
followed by the lower-case hex HMAC-SHA512, keyed by the secret key, of
the UTF-8 bytes of the plus-join of the ordered list `[method, host_ip
(only when configured truthy), "" (the always-empty url path), accept,
auth_string, timestamp, query_string]`, where `auth_string` URL-encodes
the three credential fields in the `uencoded`/`pencoded`/`orgEncoded`
shape; and the timestamp header has the fixed `YYYY-MM-DDTHH:MM:SS.mmmZ`
form with the millisecond field obtained by floor division (truncation,
not rounding) of the microseconds by 1000. -/
theorem generate_auth_signature_structure (c : Connector) (varString accept : String)
    (now : UTCTime) :
    (generateAuth c varString accept now).authentication =
      "HMAC " ++ hmacSha512Hex c.secret_key (joinSep "+"
        (["GET"] ++
         (match c.host_ip with
          | some h => if h = "" then [] else [h]
          | none => []) ++
         ["", accept,
          "uencoded=" ++ urlquote c.u_encoded ++ "&pencoded=" ++ urlquote c.p_encoded ++
            "&orgEncoded=" ++ urlquote c.org_encoded,
          formatTimestamp now, varString])) ∧
    (generateAuth c varString accept now).afdatetimeutc =
      padNum 4 now.year ++ "-" ++ padNum 2 now.month ++ "-" ++ padNum 2 now.day ++ "T" ++
      padNum 2 now.hour ++ ":" ++ padNum 2 now.minute ++ ":" ++ padNum 2 now.second ++
      "." ++ padNum 3 (now.microsecond / 1000) ++ "Z" := by
  constructor
  · rcases c with ⟨o, u, p, k, hip⟩
    cases hip with
    | none => rfl
    | some h =>
      by_cases hh : h = "" <;>
        simp [generateAuth, stringToSign, signPayload, authStringOf, hostTruthy,
          hostIpStr, hh]
  · rfl

/-! ## C8 -/

/-- C8, amended: with credentials, method, accept header, query string and
host IP fixed, two distinct timestamp strings always yield distinct
signed payloads — the timestamp occupies its own plus-delimited slot of
the string the keyed MAC is computed over — so the signatures differ
whenever the MAC does not collide on the two payloads.  (Signature
inequality for every distinct timestamp pair, as originally claimed,
fails by the pigeonhole counterexample below.) -/
theorem timestamp_in_signed_payload (c : Connector) (accept varString t1 t2 : String)
    (h : t1 ≠ t2) :
    stringToSign c accept varString t1 ≠ stringToSign c accept varString t2 := by
  intro heq
  apply h
  have hrw : ∀ t : String, signPayload c accept varString t =
      ((if hostTruthy c then ["GET", hostIpStr c] else ["GET"]) ++
        ["", accept, authStringOf c]) ++ [t, varString] := by
    intro t
    cases hh : hostTruthy c <;> simp [signPayload, hh]
  rw [stringToSign, stringToSign, hrw, hrw] at heq
  have hmid := joinSep_last_two_inj "+" _ t1 t2 varString heq
  exact strAppendRightCancel (strAppendRightCancel hmid)

/-- Witness for C8 at a concrete connector and two timestamps one
millisecond apart. -/
theorem timestamp_in_signed_payload_witness :
    stringToSign
        { org_encoded := "org", u_encoded := "user", p_encoded := "pass",
          secret_key := "key", host_ip := none }
        "text/json" "zone=invoices&page=1" "2026-01-02T03:04:05.006Z" ≠
      stringToSign
        { org_encoded := "org", u_encoded := "user", p_encoded := "pass",
          secret_key := "key", host_ip := none }
        "text/json" "zone=invoices&page=1" "2026-01-02T03:04:05.007Z" :=
  timestamp_in_signed_payload _ _ _ _ _ (by decide)

/-! ### Signature collisions exist, by pigeonhole

The hex MAC takes finitely many values (64 output bytes) while the
timestamp strings form an infinite set, so the map from timestamps to
signatures cannot be injective.  The lemmas below pin down the digest
shape (64 entries, each below 256) and the injectivity of the base-256
value of such byte lists, and the counterexample concludes. -/

/-- Length of the big-endian byte expansion. -/
theorem beBytes_length (n k : Nat) : (beBytes n k).length = k := by
  induction k generalizing n with
  | zero => rfl
  | succ m ih => simp [beBytes, ih]

/-- Every entry of the big-endian byte expansion is a byte. -/
theorem beBytes_lt (n k : Nat) : ∀ x ∈ beBytes n k, x < 256 := by
  induction k generalizing n with
  | zero => intro x hx; simp [beBytes] at hx
  | succ m ih =>
    intro x hx
    simp only [beBytes, List.mem_append, List.mem_singleton] at hx
    rcases hx with h | h
    · exact ih (n / 256) x h
    · rw [h]; exact Nat.mod_lt _ (by omega)

/-- One SHA-512 round preserves the state length. -/
theorem sha512Round_length (st : List Nat) (kw : Nat × Nat) :
    (sha512Round st kw).length = st.length := by
  rcases st with _ | ⟨a, _ | ⟨b, _ | ⟨c, _ | ⟨d, _ | ⟨e, _ | ⟨f, _ | ⟨g, _ | ⟨h, _ | ⟨i, rest⟩⟩⟩⟩⟩⟩⟩⟩⟩ <;>
    rfl

/-- The eighty rounds preserve the state length. -/
theorem foldl_sha512Round_length (l : List (Nat × Nat)) :
    ∀ st : List Nat, (l.foldl sha512Round st).length = st.length := by
  induction l with
  | nil => intro st; rfl
  | cons kw rest ih =>
    intro st
    rw [List.foldl_cons, ih, sha512Round_length]

/-- Compression keeps the state at eight words. -/
theorem sha512Compress_length (st block : List Nat) (h : st.length = 8) :
    (sha512Compress st block).length = 8 := by
  simp [sha512Compress, List.length_zip, foldl_sha512Round_length, h]

/-- Folding compression over any block list keeps the state at eight words. -/
theorem foldl_sha512Compress_length (blocks : List (List Nat)) :
    ∀ st : List Nat, st.length = 8 → (blocks.foldl sha512Compress st).length = 8 := by
  induction blocks with
  | nil => intro st h; simpa using h
  | cons b rest ih =>
    intro st h
    rw [List.foldl_cons]
    exact ih _ (sha512Compress_length st b h)

/-- Length of the flattened eight-byte expansions of a word list. -/
theorem flatten_beBytes_length (l : List Nat) :
    ((l.map (fun w => beBytes w 8)).flatten).length = 8 * l.length := by
  induction l with
  | nil => rfl
  | cons a rest ih =>
    simp only [List.map_cons, List.flatten_cons, List.length_append, beBytes_length, ih,
      List.length_cons]
    ring

/-- Entries of flattened byte expansions are bytes. -/
theorem flatten_beBytes_lt (l : List Nat) :
    ∀ x ∈ (l.map (fun w => beBytes w 8)).flatten, x < 256 := by
  intro x hx
  rw [List.mem_flatten] at hx
  obtain ⟨s, hs, hxs⟩ := hx
  rw [List.mem_map] at hs
  obtain ⟨w, _, hw⟩ := hs
  rw [← hw] at hxs
  exact beBytes_lt w 8 x hxs

/-- Unfolding of the digest to flattened byte expansions of the final
state words. -/
theorem sha512Bytes_eq (msg : List Nat) :
    sha512Bytes msg =
      (((chunks 128 (msg ++ [0x80] ++
          List.replicate ((239 - msg.length % 128) % 128) 0 ++
          beBytes (8 * msg.length) 16)).foldl sha512Compress sha512H0).map
        (fun x => beBytes x 8)).flatten := rfl

/-- A SHA-512 digest always has 64 entries. -/
theorem sha512Bytes_length (msg : List Nat) : (sha512Bytes msg).length = 64 := by
  rw [sha512Bytes_eq, flatten_beBytes_length, foldl_sha512Compress_length _ sha512H0 rfl]

/-- Digest entries are bytes. -/
theorem sha512Bytes_lt (msg : List Nat) : ∀ x ∈ sha512Bytes msg, x < 256 := by
  rw [sha512Bytes_eq]
  exact flatten_beBytes_lt _

/-- An HMAC digest always has 64 entries. -/
theorem hmacSha512_length (key msg : List Nat) : (hmacSha512 key msg).length = 64 :=
  sha512Bytes_length _

/-- HMAC digest entries are bytes. -/
theorem hmacSha512_lt (key msg : List Nat) : ∀ x ∈ hmacSha512 key msg, x < 256 :=
  sha512Bytes_lt _

/-- Folding the base-256 accumulator from an arbitrary seed. -/
theorem wordOfBytes_foldl (l : List Nat) :
    ∀ acc : Nat, List.foldl (fun a b => a * 256 + b) acc l =
      acc * 256 ^ l.length + wordOfBytes l := by
  induction l with
  | nil => intro acc; simp [wordOfBytes]
  | cons a rest ih =>
    intro acc
    have h2 : wordOfBytes (a :: rest) = a * 256 ^ rest.length + wordOfBytes rest := by
      show List.foldl (fun a b => a * 256 + b) (0 * 256 + a) rest = _
      rw [ih]
      ring
    rw [List.foldl_cons, ih, h2, List.length_cons]
    ring

/-- The base-256 value of a byte list is below 256 to its length. -/
theorem wordOfBytes_lt : ∀ (l : List Nat), (∀ x ∈ l, x < 256) →
    wordOfBytes l < 256 ^ l.length := by
  intro l
  induction l with
  | nil => intro hb; simp [wordOfBytes]
  | cons a rest ih =>
    intro hb
    have h2 : wordOfBytes (a :: rest) = a * 256 ^ rest.length + wordOfBytes rest := by
      show List.foldl (fun a b => a * 256 + b) (0 * 256 + a) rest = _
      rw [wordOfBytes_foldl]
      ring
    have ha : a < 256 := hb a (by simp)
    have hr : wordOfBytes rest < 256 ^ rest.length := ih (fun x hx => hb x (by simp [hx]))
    rw [h2, List.length_cons]
    calc a * 256 ^ rest.length + wordOfBytes rest
        < a * 256 ^ rest.length + 256 ^ rest.length := by omega
      _ = (a + 1) * 256 ^ rest.length := by ring
      _ ≤ 256 * 256 ^ rest.length := Nat.mul_le_mul_right _ (by omega)
      _ = 256 ^ (rest.length + 1) := by ring

/-- The base-256 value is injective on byte lists of equal length. -/
theorem wordOfBytes_inj : ∀ (l1 l2 : List Nat), l1.length = l2.length →
    (∀ x ∈ l1, x < 256) → (∀ x ∈ l2, x < 256) →
    wordOfBytes l1 = wordOfBytes l2 → l1 = l2 := by
  intro l1
  induction l1 with
  | nil =>
    intro l2 hlen _ _ _
    cases l2 with
    | nil => rfl
    | cons b r2 => simp at hlen
  | cons a r1 ih =>
    intro l2 hlen hb1 hb2 heq
    cases l2 with
    | nil => simp at hlen
    | cons b r2 =>
      have hlen2 : r1.length = r2.length := by simpa using hlen
      have e1 : wordOfBytes (a :: r1) = a * 256 ^ r2.length + wordOfBytes r1 := by
        rw [← hlen2]
        show List.foldl (fun a b => a * 256 + b) (0 * 256 + a) r1 = _
        rw [wordOfBytes_foldl]
        ring
      have e2 : wordOfBytes (b :: r2) = b * 256 ^ r2.length + wordOfBytes r2 := by
        show List.foldl (fun a b => a * 256 + b) (0 * 256 + b) r2 = _
        rw [wordOfBytes_foldl]
        ring
      rw [e1, e2] at heq
      have hw1 : wordOfBytes r1 < 256 ^ r2.length := by
        rw [← hlen2]
        exact wordOfBytes_lt r1 (fun x hx => hb1 x (by simp [hx]))
      have hw2 : wordOfBytes r2 < 256 ^ r2.length :=
        wordOfBytes_lt r2 (fun x hx => hb2 x (by simp [hx]))
      have hM : 0 < 256 ^ r2.length := pow_pos (by omega) _
      have hab : a = b := by
        have d1 : (a * 256 ^ r2.length + wordOfBytes r1) / 256 ^ r2.length = a := by
          rw [Nat.mul_comm a _, Nat.mul_add_div hM, Nat.div_eq_of_lt hw1, Nat.add_zero]
        have d2 : (b * 256 ^ r2.length + wordOfBytes r2) / 256 ^ r2.length = b := by
          rw [Nat.mul_comm b _, Nat.mul_add_div hM, Nat.div_eq_of_lt hw2, Nat.add_zero]
        rw [← d1, ← d2, heq]
      subst hab
      have hw : wordOfBytes r1 = wordOfBytes r2 := Nat.add_left_cancel heq
      rw [ih r2 hlen2 (fun x hx => hb1 x (by simp [hx])) (fun x hx => hb2 x (by simp [hx])) hw]

/-- The concrete connector of the collision counterexample. -/
def c8Connector : Connector :=
  { org_encoded := "org", u_encoded := "user", p_encoded := "pass", secret_key := "key",
    host_ip := none }

/-- Pairwise-distinct timestamp strings, indexed by their length. -/
def collTimestamp (n : Nat) : String := ⟨List.replicate n 'a'⟩

/-- The signature hex digest the signer computes for the fixed concrete
request of the counterexample and a given timestamp. -/
def signatureFor (t : String) : String :=
  hmacSha512Hex c8Connector.secret_key
    (stringToSign c8Connector "text/json" "zone=invoices&page=1" t)

/-- The MAC bytes whose hex encoding is `signatureFor`. -/
def signatureBytesFor (t : String) : List Nat :=
  hmacSha512 (utf8 c8Connector.secret_key)
    (utf8 (stringToSign c8Connector "text/json" "zone=invoices&page=1" t))

/-- Distinct indices give distinct timestamp strings. -/
theorem collTimestamp_inj {m n : Nat} (h : collTimestamp m = collTimestamp n) : m = n := by
  have h2 := congrArg (fun s => s.data.length) h
  simpa [collTimestamp] using h2

/-- C8, counterexample: the claim as stated — for every pair of distinct
timestamps the signatures computed by the signer differ — is false: on a
fixed concrete request the signature is a 64-byte MAC, so it takes
finitely many values, while the timestamps range over an infinite set;
by the pigeonhole principle some two distinct timestamps receive equal
signatures. -/
theorem signature_collision_exists :
    ¬ ∀ (t1 t2 : String), t1 ≠ t2 → signatureFor t1 ≠ signatureFor t2 := by
  intro hinj
  have hlen : ∀ n : Nat, (signatureBytesFor (collTimestamp n)).length = 64 :=
    fun n => hmacSha512_length _ _
  have hbnd : ∀ n : Nat, ∀ x ∈ signatureBytesFor (collTimestamp n), x < 256 :=
    fun n => hmacSha512_lt _ _
  have hF : ∀ n : Nat, wordOfBytes (signatureBytesFor (collTimestamp n)) < 256 ^ 64 := by
    intro n
    have h2 := wordOfBytes_lt (signatureBytesFor (collTimestamp n)) (hbnd n)
    rw [hlen n] at h2
    exact h2
  obtain ⟨m, n, hmn, hFeq⟩ := Finite.exists_ne_map_eq_of_infinite
    (fun n : Nat =>
      (⟨wordOfBytes (signatureBytesFor (collTimestamp n)), hF n⟩ : Fin (256 ^ 64)))
  simp only [Fin.mk.injEq] at hFeq
  have hbytes : signatureBytesFor (collTimestamp m) = signatureBytesFor (collTimestamp n) :=
    wordOfBytes_inj _ _ (by rw [hlen m, hlen n]) (hbnd m) (hbnd n) hFeq
  have hts : collTimestamp m ≠ collTimestamp n := fun h => hmn (collTimestamp_inj h)
  have hsig : signatureFor (collTimestamp m) = signatureFor (collTimestamp n) := by
    unfold signatureFor hmacSha512Hex
    rw [show hmacSha512 (utf8 c8Connector.secret_key)
        (utf8 (stringToSign c8Connector "text/json" "zone=invoices&page=1"
          (collTimestamp m))) = signatureBytesFor (collTimestamp m) from rfl,
      show hmacSha512 (utf8 c8Connector.secret_key)
        (utf8 (stringToSign c8Connector "text/json" "zone=invoices&page=1"
          (collTimestamp n))) = signatureBytesFor (collTimestamp n) from rfl,
      hbytes]
  exact hinj (collTimestamp m) (collTimestamp n) hts hsig

/-! ## C3 -/

/-- Unfolding of the retry loop at positive fuel. -/
theorem attemptLoop_succ (outcomes : Nat → Outcome) (n calls : Nat) (last : Option String) :
    attemptLoop outcomes (n + 1) calls last =
      match outcomes calls with
      | .transport e => attemptLoop outcomes n (calls + 1) (some e)
      | .success b => (checkBody b, calls + 1) := rfl

/-- Unfolding of the retry loop at zero fuel. -/
theorem attemptLoop_zero (outcomes : Nat → Outcome) (calls : Nat) (last : Option String) :
    attemptLoop outcomes 0 calls last =
      (match last with
       | some e => ReqResult.transportError e
       | none => ReqResult.exhaustedError, calls) := rfl

/-- Step of the retry loop when the attempt raises a transport exception. -/
theorem attemptLoop_step_transport (outcomes : Nat → Outcome) {calls : Nat} {e : String}
    (ho : outcomes calls = Outcome.transport e) (n : Nat) (last : Option String) :
    attemptLoop outcomes (n + 1) calls last = attemptLoop outcomes n (calls + 1) (some e) := by
  rw [attemptLoop_succ, ho]

/-- Step of the retry loop when the attempt returns a parsed body. -/
theorem attemptLoop_step_success (outcomes : Nat → Outcome) {calls : Nat} {b : ApiBody}
    (ho : outcomes calls = Outcome.success b) (n : Nat) (last : Option String) :
    attemptLoop outcomes (n + 1) calls last = (checkBody b, calls + 1) := by
  rw [attemptLoop_succ, ho]

/-- The retry loop never makes more calls than it has fuel. -/
theorem attemptLoop_calls_le (outcomes : Nat → Outcome) :
    ∀ (fuel calls : Nat) (last : Option String),
      (attemptLoop outcomes fuel calls last).2 ≤ calls + fuel := by
  intro fuel
  induction fuel with
  | zero => intro calls last; rw [attemptLoop_zero]; omega
  | succ n ih =>
    intro calls last
    cases ho : outcomes calls with
    | transport e =>
      have h2 := ih (calls + 1) (some e)
      rw [attemptLoop_step_transport outcomes ho n last]
      omega
    | success b =>
      rw [attemptLoop_step_success outcomes ho n last]
      show calls + 1 ≤ calls + (n + 1)
      omega

/-- If the first `i` attempts raise transport exceptions and attempt `i`
returns a parsed body, the loop ends at attempt `i` with that parsed
`checkBody` outcome. -/
theorem attemptLoop_success_at (outcomes : Nat → Outcome) (b : ApiBody) :
    ∀ (i fuel calls : Nat) (last : Option String), i < fuel →
      (∀ j, calls ≤ j → j < calls + i → (outcomes j).isTransport = true) →
      outcomes (calls + i) = Outcome.success b →
      attemptLoop outcomes fuel calls last = (checkBody b, calls + i + 1) := by
  intro i
  induction i with
  | zero =>
    intro fuel calls last hfuel htrans hsucc
    obtain ⟨n, rfl⟩ : ∃ n, fuel = n + 1 := ⟨fuel - 1, by omega⟩
    rw [Nat.add_zero] at hsucc
    rw [attemptLoop_step_success outcomes hsucc n last]
  | succ k ih =>
    intro fuel calls last hfuel htrans hsucc
    obtain ⟨n, rfl⟩ : ∃ n, fuel = n + 1 := ⟨fuel - 1, by omega⟩
    have ht := htrans calls le_rfl (by omega)
    cases ho : outcomes calls with
    | success b2 => rw [ho] at ht; simp [Outcome.isTransport] at ht
    | transport e =>
      rw [attemptLoop_step_transport outcomes ho n last]
      have harith : calls + 1 + k = calls + (k + 1) := by omega
      have hres := ih n (calls + 1) (some e) (by omega)
        (fun j hj1 hj2 => htrans j (by omega) (by omega))
        (by rw [harith]; exact hsucc)
      rw [hres]
      simp only [Prod.mk.injEq, true_and]
      omega

/-- If every attempt raises a transport exception, the loop exhausts its
fuel and re-raises the last exception observed. -/
theorem attemptLoop_all_transport (outcomes : Nat → Outcome) (e : String) :
    ∀ (fuel calls : Nat) (last : Option String), 0 < fuel →
      (∀ j, calls ≤ j → j < calls + fuel → (outcomes j).isTransport = true) →
      outcomes (calls + fuel - 1) = Outcome.transport e →
      attemptLoop outcomes fuel calls last = (ReqResult.transportError e, calls + fuel) := by
  intro fuel
  induction fuel with
  | zero => intro calls last hpos htrans hlast; omega
  | succ n ih =>
    intro calls last hpos htrans hlast
    cases n with
    | zero =>
      have hc : calls + 1 - 1 = calls := by omega
      rw [hc] at hlast
      rw [attemptLoop_step_transport outcomes hlast 0 last, attemptLoop_zero]
    | succ m =>
      have ht := htrans calls le_rfl (by omega)
      cases ho : outcomes calls with
      | success b => rw [ho] at ht; simp [Outcome.isTransport] at ht
      | transport e0 =>
        rw [attemptLoop_step_transport outcomes ho (m + 1) last]
        have hres := ih (calls + 1) (some e0) (by omega)
          (fun j h1 h2 => htrans j (by omega) (by omega))
          (by
            have hc2 : calls + 1 + (m + 1) - 1 = calls + (m + 1 + 1) - 1 := by omega
            rw [hc2]; exact hlast)
        rw [hres]
        simp only [Prod.mk.injEq, true_and]
        omega

/-- C3: `request` makes at most `retries` HTTP calls; after any run of
transport exceptions, the first parsed body ends the loop at once with
`checkBody`, which raises the `ApiError` `ValueError` exactly when the
body carries the application-error sentinel (truthy `error` field or
`status == "-99999"`) and returns the body otherwise; and when every
attempt raises a transport exception the loop exhausts `retries` calls
and re-raises the last transport exception observed. -/
theorem retry_policy (c : Connector) (zone : String) (params : List (String × String))
    (retries : Nat) (outcomes : Nat → Outcome) :
    (request c zone params retries outcomes).2 ≤ retries ∧
    (credentialsOk c = true →
      ∀ i, i < retries → (∀ j, j < i → (outcomes j).isTransport = true) →
        ∀ b, outcomes i = Outcome.success b →
          request c zone params retries outcomes = (checkBody b, i + 1)) ∧
    (∀ b, isSentinel b = true → ∃ msg, checkBody b = ReqResult.apiError msg) ∧
    (∀ b, isSentinel b = false → checkBody b = ReqResult.ok b) ∧
    (credentialsOk c = true → 0 < retries →
      (∀ j, j < retries → (outcomes j).isTransport = true) →
      ∀ e, outcomes (retries - 1) = Outcome.transport e →
        request c zone params retries outcomes = (ReqResult.transportError e, retries)) := by
  refine ⟨?_, ?_, ?_, ?_, ?_⟩
  · by_cases hc : credentialsOk c = true
    · have h2 := attemptLoop_calls_le outcomes retries 0 none
      simpa [request, hc] using h2
    · simp only [Bool.not_eq_true] at hc
      simp [request, hc]
  · intro hc i hi htr b hb
    have h2 := attemptLoop_success_at outcomes b i retries 0 none hi
      (fun j hj1 hj2 => htr j (by omega)) (by simpa using hb)
    simpa [request, hc] using h2
  · intro b hs
    cases hte : truthyError b with
    | some e => exact ⟨"API Error: " ++ e, by simp [checkBody, hte]⟩
    | none =>
      have hst : (b.status == some "-99999") = true := by
        unfold isSentinel at hs
        rw [hte] at hs
        simpa using hs
      exact ⟨"API Error: " ++ b.statusmessage.getD "Authentication failed",
        by simp [checkBody, hte, hst]⟩
  · intro b hs
    unfold isSentinel at hs
    simp only [Bool.or_eq_false_iff] at hs
    rcases hs with ⟨h1, h2⟩
    cases hte : truthyError b with
    | some e => rw [hte] at h1; simp at h1
    | none => simp [checkBody, hte, h2]
  · intro hc hpos htr e he
    have h2 := attemptLoop_all_transport outcomes e retries 0 none hpos
      (fun j hj1 hj2 => htr j (by omega)) (by simpa using he)
    simpa [request, hc] using h2

/-- A connector with the three checked credentials present. -/
def fullConnector : Connector :=
  { org_encoded := "o", u_encoded := "u", p_encoded := "p", secret_key := "k",
    host_ip := none }

/-- A parsed body carrying the truthy `error` sentinel. -/
def sentinelBody : ApiBody :=
  { errorField := some "boom", status := none, statusmessage := none }

/-- The attempt oracle for the C3 witness: one transport timeout, then a
sentinel body. -/
def w3outcomes : Nat → Outcome :=
  fun n => if n == 0 then Outcome.transport "timeout" else Outcome.success sentinelBody

/-- Witness for C3: with one transport failure followed by a sentinel
body, `request` stops after the second call with the `ApiError`. -/
theorem retry_policy_witness :
    (request fullConnector "tasks" [] 3 w3outcomes).2 ≤ 3 ∧
    request fullConnector "tasks" [] 3 w3outcomes = (checkBody sentinelBody, 2) := by
  refine ⟨(retry_policy fullConnector "tasks" [] 3 w3outcomes).1, ?_⟩
  have h := (retry_policy fullConnector "tasks" [] 3 w3outcomes).2.1 rfl 1 (by omega)
    ?_ sentinelBody rfl
  · exact h
  · intro j hj
    have hj0 : j = 0 := by omega
    subst hj0
    rfl

/-! ## C4 -/

/-- A response sequence whose reported total-page count always exceeds the
current page and whose pages are never empty. -/
def runawayPages (p : Nat) : PageResponse := { items := [0], totalpages := p + 2 }

/-- Against `runawayPages`, the pagination loop never stops, with any
amount of fuel. -/
theorem runaway_never_stops (fuel : Nat) :
    ∀ (page : Nat) (acc : List Nat), fetchPagesGo runawayPages fuel page acc = none := by
  induction fuel with
  | zero => intro page acc; rfl
  | succ n ih =>
    intro page acc
    have hcond : ¬ ((runawayPages page).totalpages ≤ page) := by
      simp only [runawayPages]
      omega
    simp [fetchPagesGo, runawayPages, hcond, ih]

/-- C4, counterexample: the claimed "for every sequence of page responses
the loop terminates" is false on the code — with every response reporting
`totalpages = page + 2` and a non-empty item list, `_fetch_all_pages`
never stops, however many iterations are observed. -/
theorem pagination_may_not_terminate :
    ¬ ∃ fuel, (fetchAllPages runawayPages fuel).isSome = true := by
  rintro ⟨fuel, hf⟩
  rw [fetchAllPages, runaway_never_stops fuel 1 []] at hf
  simp at hf

/-- With all reported total-page counts bounded by `T`, the loop stops by
the time `page + fuel` passes `T`. -/
theorem fetchPagesGo_stops_by_bound (resp : Nat → PageResponse) (T : Nat)
    (hT : ∀ p, (resp p).totalpages ≤ T) :
    ∀ (fuel page : Nat) (acc : List Nat), T + 1 ≤ page + fuel → 1 ≤ fuel →
      (fetchPagesGo resp fuel page acc).isSome = true := by
  intro fuel
  induction fuel with
  | zero => intro page acc h1 h2; omega
  | succ n ih =>
    intro page acc hbound _
    cases hempty : (resp page).items.isEmpty with
    | true => simp [fetchPagesGo, hempty]
    | false =>
      by_cases hstop : (resp page).totalpages ≤ page
      · simp [fetchPagesGo, hempty, hstop]
      · have hlt : page < T := by
          have h3 := hT page
          omega
        have hrec := ih (page + 1) (acc ++ (resp page).items) (by omega) (by omega)
        simp [fetchPagesGo, hempty, hstop, hrec]

/-- C4, amended: the stop conditions hold as claimed — a page with zero
items stops the loop at once, and a non-empty page whose number has
reached its reported total-page count stops it after being collected —
and whenever the server-reported total-page count is bounded by `T`
across pages, the loop terminates within `max T 1` iterations.  (Without
such a bound the loop need not terminate.) -/
theorem pagination_bounded_when_totalpages_bounded (resp : Nat → PageResponse) (T : Nat)
    (hT : ∀ p, (resp p).totalpages ≤ T) :
    (fetchAllPages resp (max T 1)).isSome = true ∧
    (∀ (fuel page : Nat) (acc : List Nat), (resp page).items = [] →
      fetchPagesGo resp (fuel + 1) page acc = some acc) ∧
    (∀ (fuel page : Nat) (acc : List Nat), (resp page).items ≠ [] →
      (resp page).totalpages ≤ page →
      fetchPagesGo resp (fuel + 1) page acc = some (acc ++ (resp page).items)) := by
  refine ⟨?_, ?_, ?_⟩
  · refine fetchPagesGo_stops_by_bound resp T hT (max T 1) 1 [] ?_ ?_
    · have h1 := Nat.le_max_left T 1
      omega
    · have h2 := Nat.le_max_right T 1
      omega
  · intro fuel page acc h
    simp [fetchPagesGo, h]
  · intro fuel page acc h1 h2
    have hne : (resp page).items.isEmpty = false := by
      simp [List.isEmpty_iff, h1]
    simp [fetchPagesGo, hne, h2]

/-- Witness for the amended C4 theorem at the constant empty-page response
sequence with bound `T = 1`. -/
theorem pagination_bounded_witness :
    (fetchAllPages (fun _ => { items := [], totalpages := 1 }) (max 1 1)).isSome = true :=
  (pagination_bounded_when_totalpages_bounded (fun _ => { items := [], totalpages := 1 }) 1
    (fun _ => le_rfl)).1

/-! ## C7 -/

/-- The correction loop separates into the fold of the surviving
replacements over the corrected text and the appended list of recorded
diagnostics: filtering, recording and flagged-word extraction all read
the fixed pre-corrected text, never the evolving corrected string. -/
theorem ltLoop_spec (pre : String) :
    ∀ (ms : List LTMatch) (c : String) (errs : List ErrInfo),
      ltLoop pre ms c errs =
        ((ms.filterMap (survivingRepl pre)).foldl applyRepl c,
         errs ++ ms.filterMap (recordedErr pre)) := by
  intro ms
  induction ms with
  | nil => intro c errs; simp [ltLoop]
  | cons m rest ih =>
    intro c errs
    cases hf : filterSuggestions pre m with
    | none =>
      simp [ltLoop, hf, survivingRepl, recordedErr, List.filterMap_cons, ih]
    | some suggs =>
      cases hs : suggs.isEmpty with
      | true =>
        simp [ltLoop, hf, hs, survivingRepl, recordedErr, List.filterMap_cons, ih]
      | false =>
        simp [ltLoop, hf, hs, survivingRepl, recordedErr, List.filterMap_cons, ih]

/-- Embeds `_check_text_languagetool_api` applied to the match list: the
corrected text is the fold of the surviving replacements taken in the
reverse of the match order, and the diagnostics are the surviving
records of the surviving matches in the original match order. -/
theorem checkTextLT_spec (pre : String) (ms : List LTMatch) :
    checkTextLT pre ms =
      (((ms.filterMap (survivingRepl pre)).reverse).foldl applyRepl pre,
       ms.filterMap (recordedErr pre)) := by
  rw [checkTextLT, ltLoop_spec]
  rw [filterMap_reverse_comm, filterMap_reverse_comm]
  simp

/-- A recorded diagnostic carries the offset of its source match. -/
theorem recordedErr_offset {pre : String} {m : LTMatch} {e : ErrInfo}
    (h : recordedErr pre m = some e) : e.offset = m.offset := by
  rcases Option.map_eq_some'.mp h with ⟨s, _, hmk⟩
  rw [← hmk]
  rfl

/-- A surviving replacement carries the offset of its source match. -/
theorem survivingRepl_offset {pre : String} {m : LTMatch} {r : Nat × Nat × String}
    (h : survivingRepl pre m = some r) : r.1 = m.offset := by
  unfold survivingRepl at h
  cases hf : filterSuggestions pre m with
  | none => rw [hf] at h; simp at h
  | some suggs =>
    rw [hf] at h
    simp only at h
    cases hs : suggs.isEmpty with
    | true => rw [hs] at h; simp at h
    | false =>
      rw [hs] at h
      simp only [Bool.false_eq_true, if_false, Option.some.injEq] at h
      rw [← h]

/-- Monotone extraction is preserved through `filterMap` when the
extracted measure equals the source offset. -/
theorem pairwise_le_filterMap {β} (f : LTMatch → Option β) (g : β → Nat)
    (hpres : ∀ m e, f m = some e → g e = m.offset) :
    ∀ {l : List LTMatch}, l.Pairwise (fun a b => a.offset ≤ b.offset) →
      (l.filterMap f).Pairwise (fun x y => g x ≤ g y) := by
  intro l
  induction l with
  | nil => intro h; simp
  | cons m rest ih =>
    intro h
    rcases List.pairwise_cons.mp h with ⟨hm, hrest⟩
    cases hf : f m with
    | none => simpa [List.filterMap_cons, hf] using ih hrest
    | some e =>
      rw [List.filterMap_cons, hf]
      refine List.pairwise_cons.mpr ⟨?_, ih hrest⟩
      intro y hy
      rcases List.mem_filterMap.mp hy with ⟨b, hb, hfb⟩
      rw [hpres m e hf, hpres b y hfb]
      exact hm b hb

/-- C7: given matches with valid offsets listed in ascending-offset order
of the checked text, the corrector applies the surviving replacements by
folding over the reversed (hence descending-offset) survivor list — so
earlier offsets stay valid while later-in-string substitutions are
applied — and returns the diagnostics in ascending-offset (forward
reading) order. -/
theorem corrector_order_discipline (pre : String) (ms : List LTMatch)
    (hvalid : ∀ m ∈ ms, m.offset + m.length ≤ pre.data.length)
    (hsorted : ms.Pairwise (fun a b => a.offset ≤ b.offset)) :
    (checkTextLT pre ms).1 =
      ((ms.filterMap (survivingRepl pre)).reverse).foldl applyRepl pre ∧
    (checkTextLT pre ms).2 = ms.filterMap (recordedErr pre) ∧
    ((checkTextLT pre ms).2).Pairwise (fun a b => a.offset ≤ b.offset) ∧
    ((ms.filterMap (survivingRepl pre)).reverse).Pairwise (fun r s => s.1 ≤ r.1) := by
  have hspec := checkTextLT_spec pre ms
  refine ⟨by rw [hspec], by rw [hspec], ?_, ?_⟩
  · rw [hspec]
    exact pairwise_le_filterMap (recordedErr pre) ErrInfo.offset
      (fun m e h => recordedErr_offset h) hsorted
  · rw [List.pairwise_reverse]
    exact pairwise_le_filterMap (survivingRepl pre) (fun r => r.1)
      (fun m r h => survivingRepl_offset h) hsorted

/-- The checked text for the C7 witness. -/
def w7pre : String := "I have teh item"

/-- The single grammar match for the C7 witness, flagging `teh`. -/
def w7match : LTMatch :=
  { offset := 7, length := 3, replacements := ["the"], message := "Possible typo",
    rule_id := "MORFOLOGIK_RULE_EN_AU" }

/-- Witness for C7 at a one-match list: the diagnostics come back in
ascending-offset order. -/
theorem corrector_order_discipline_witness :
    ((checkTextLT w7pre [w7match]).2).Pairwise (fun a b => a.offset ≤ b.offset) :=
  (corrector_order_discipline w7pre [w7match] (by decide) (by decide)).2.2.1

end Aroflo
